import Mathlib

/-
Verification of the map editor data model (src/editor/map_data.h, class
hoa_editor::MapData).

The repository ships only the header: a few methods are defined inline there
(GetErrorMessage, ShowTileLayer, HideTileLayer, EnableTileLayerCollision,
DisableTileLayerCollision, MoveTileLayerUp, MoveTileLayerDown,
RemoveInheritanceTileContext, and the accessors) and are embedded from that
source text.  Every other method body is absent from the repository sources,
so those operations are modelled from the specification; each such definition
carries a doc comment starting with "Modelled from the spec:".

Representation choices:
- uint32 quantities become Nat, with arithmetic reduced modulo 2^32 exactly
  where the C++ wraps (the MoveTileLayerUp and MoveTileLayerDown wrappers).
- int32 context identifiers become Int (the sentinel INVALID_CONTEXT is -1
  and identifiers stay far below any overflow boundary, bounded by
  MAX_CONTEXTS = 32).
- The fixed-capacity slot vector _all_tile_contexts (always of size
  MAX_CONTEXTS, nullptr for free slots) becomes a List (Option TileContext).
- QString becomes String, QStringList becomes List String.
- Out-of-range std::vector element access (undefined behavior in C++) is made
  observable by returning none from an operation that can perform it.
- The derived _collision_data grid, the selection pointers and the designer
  and description strings are pure functions of, or inert annotations on, the
  remaining state and are not referenced by any verified property; they are
  omitted from the record.
-/

namespace HoaEditor

/-- Sentinel identifier meaning no inheritance, used for base contexts. -/
def INVALID_CONTEXT : Int := -1

/-- Maximum number of tile contexts a map may hold. -/
def MAX_CONTEXTS : Nat := 32

/-- Tile value used for an empty tile cell. -/
def NO_TILE : Int := -1

/-- Modulus of the C++ uint32 type. -/
def UINT32_MOD : Nat := 2 ^ 32

/-- A rectangular grid of tile identifiers for one layer within one context. -/
structure TileLayer where
  grid : List (List Int)
deriving DecidableEq, Repr

/-- Shared per-layer metadata, stored once per layer slot. -/
structure TileLayerProperties where
  layer_name : String
  visible : Bool
  collision_enabled : Bool
deriving DecidableEq, Repr

/-- One variant of the map: an identifier, a display name, an optional
inherited context reference and one tile layer per layer slot. -/
structure TileContext where
  context_name : String
  context_id : Int
  inherited_context_id : Int
  tile_layers : List TileLayer
deriving DecidableEq, Repr

/-- The map editor data model, embedding the fields of class MapData. -/
structure MapData where
  map_filename : String
  map_name : String
  map_length : Nat
  map_height : Nat
  map_modified : Bool
  tile_layer_count : Nat
  tile_context_count : Nat
  tilesets : List String
  all_tile_contexts : List (Option TileContext)
  tile_layer_properties : List TileLayerProperties
  error_message : String
deriving DecidableEq, Repr

/-- A MapData value holding no map, the state produced by the constructor. -/
def MapData.empty : MapData :=
  { map_filename := ""
    map_name := ""
    map_length := 0
    map_height := 0
    map_modified := false
    tile_layer_count := 0
    tile_context_count := 0
    tilesets := []
    all_tile_contexts := []
    tile_layer_properties := []
    error_message := "" }

/-- Records an error message in the single pending-error slot, as every
failing MapData method does before returning. -/
def setError (d : MapData) (msg : String) : MapData :=
  { d with error_message := msg }

/-- The map state with the error channel blanked out: two states agree on
content exactly when everything but the pending error message agrees. -/
def MapData.content (d : MapData) : MapData :=
  { d with error_message := "" }

/-- The live contexts, in slot order: the non-null entries of the fixed
capacity slot vector _all_tile_contexts. -/
def liveContexts (d : MapData) : List TileContext :=
  d.all_tile_contexts.filterMap id

/-- From the header: IsInitialized returns whether the context count is
positive. -/
def IsInitialized (d : MapData) : Bool :=
  d.tile_context_count > 0

/-- From the header: GetErrorMessage returns the most recent error message
and clears the stored error. -/
def GetErrorMessage (d : MapData) : String × MapData :=
  (d.error_message, { d with error_message := "" })

/-- Ordered list of the names of all tile layers. -/
def GetTileLayerNames (d : MapData) : List String :=
  d.tile_layer_properties.map (fun p => p.layer_name)

/-- Ordered list of the names of all tile contexts. -/
def GetTileContextNames (d : MapData) : List String :=
  (liveContexts d).map (fun c => c.context_name)

/-- Linear lookup of a live context by identifier, none on a miss. -/
def FindTileContextByID (d : MapData) (context_id : Int) : Option TileContext :=
  (liveContexts d).find? (fun c => c.context_id == context_id)

/-- From the header: ShowTileLayer checks layer_index <= _tile_layer_count
and then writes through _tile_layer_properties[layer_index].  The element
access is a std::vector operator[] with no bound of its own, so an index at
or past the vector size is undefined behavior, modelled as none. -/
def ShowTileLayer (d : MapData) (layer_index : Nat) : Option MapData :=
  if layer_index ≤ d.tile_layer_count then
    match d.tile_layer_properties[layer_index]? with
    | some p =>
        some { d with tile_layer_properties :=
                 d.tile_layer_properties.set layer_index { p with visible := true } }
    | none => none
  else
    some d

/-- From the header: HideTileLayer, same guard and access as ShowTileLayer. -/
def HideTileLayer (d : MapData) (layer_index : Nat) : Option MapData :=
  if layer_index ≤ d.tile_layer_count then
    match d.tile_layer_properties[layer_index]? with
    | some p =>
        some { d with tile_layer_properties :=
                 d.tile_layer_properties.set layer_index { p with visible := false } }
    | none => none
  else
    some d

/-- From the header: EnableTileLayerCollision, same guard and access. -/
def EnableTileLayerCollision (d : MapData) (layer_index : Nat) : Option MapData :=
  if layer_index ≤ d.tile_layer_count then
    match d.tile_layer_properties[layer_index]? with
    | some p =>
        some { d with tile_layer_properties :=
                 d.tile_layer_properties.set layer_index { p with collision_enabled := true } }
    | none => none
  else
    some d

/-- From the header: DisableTileLayerCollision, same guard and access. -/
def DisableTileLayerCollision (d : MapData) (layer_index : Nat) : Option MapData :=
  if layer_index ≤ d.tile_layer_count then
    match d.tile_layer_properties[layer_index]? with
    | some p =>
        some { d with tile_layer_properties :=
                 d.tile_layer_properties.set layer_index { p with collision_enabled := false } }
    | none => none
  else
    some d

/-- Swap of two list positions; leaves the list unchanged when either index
is out of range. -/
def listSwap {α : Type} (l : List α) (i j : Nat) : List α :=
  match l[i]?, l[j]? with
  | some a, some b => (l.set i b).set j a
  | _, _ => l

/-- A tile layer of the given dimensions holding only empty tiles, the shape
of a layer cloned from the template _empty_tile_layer member. -/
def emptyTileLayer (map_length map_height : Nat) : TileLayer :=
  ⟨List.replicate map_height (List.replicate map_length NO_TILE)⟩

/-- Modelled from the spec: MapData::SwapTileLayers (body absent from the
repository sources).  Bounds-checked against the layer count; swaps the
properties entries and the layer at those positions in every context. -/
def SwapTileLayers (d : MapData) (index_one index_two : Nat) : Bool × MapData :=
  if index_one < d.tile_layer_count ∧ index_two < d.tile_layer_count then
    (true,
      { d with
        tile_layer_properties := listSwap d.tile_layer_properties index_one index_two
        all_tile_contexts := d.all_tile_contexts.map (Option.map (fun c =>
          { c with tile_layers := listSwap c.tile_layers index_one index_two }))
        map_modified := true })
  else
    (false, setError d "Invalid layer index given to SwapTileLayers")

/-- From the header: MoveTileLayerUp forwards to SwapTileLayers with
layer_index - 1 computed in uint32 arithmetic, wrapping at zero. -/
def MoveTileLayerUp (d : MapData) (layer_index : Nat) : Bool × MapData :=
  SwapTileLayers d layer_index ((layer_index + (UINT32_MOD - 1)) % UINT32_MOD)

/-- From the header: MoveTileLayerDown forwards to SwapTileLayers with
layer_index + 1 computed in uint32 arithmetic. -/
def MoveTileLayerDown (d : MapData) (layer_index : Nat) : Bool × MapData :=
  SwapTileLayers d layer_index ((layer_index + 1) % UINT32_MOD)

/-- Little-endian decimal digit characters of a natural number, with a fuel
argument for structural recursion; fuel at least the value itself always
suffices. -/
def natDigitsAux : Nat → Nat → List Char
  | 0, _ => []
  | fuel + 1, n =>
      if n = 0 then [] else Nat.digitChar (n % 10) :: natDigitsAux fuel (n / 10)

/-- Decimal rendering of a natural number, digit characters in big-endian
order, used to build numbered clone names. -/
def natRepr (n : Nat) : String :=
  ((natDigitsAux n n).reverse).asString

/-- The numbered clone name variant, of the shape "name (Clone #n)". -/
def numberedClone (name : String) (n : Nat) : String :=
  name ++ " (Clone #" ++ natRepr n ++ ")"

/-- Fuel-bounded search for the first numbered clone variant, starting at
number n, that is not on the taken list.  The fuel supplied by the caller
always exceeds the length of the taken list, so the fuel never runs out. -/
def createCloneNameLoop (name : String) (taken : List String) : Nat → Nat → String
  | 0, n => numberedClone name n
  | fuel + 1, n =>
      if numberedClone name n ∈ taken then createCloneNameLoop name taken fuel (n + 1)
      else numberedClone name n

/-- Modelled from the spec: MapData::_CreateCloneName (body absent from the
repository sources).  Tries "name (Clone)" first, then "name (Clone #2)",
"name (Clone #3)" and so on in increasing number order until a name not on
the taken list is found. -/
def CreateCloneName (name : String) (taken : List String) : String :=
  if (name ++ " (Clone)") ∈ taken then
    createCloneNameLoop name taken (taken.length + 1) 2
  else
    name ++ " (Clone)"

/-- The candidate clone names in the order the generation algorithm tries
them: index 0 is "name (Clone)", index k+1 is "name (Clone #(k+2))". -/
def cloneCandidate (name : String) : Nat → String
  | 0 => name ++ " (Clone)"
  | k + 1 => numberedClone name (k + 2)

/-- Modelled from the spec: MapData::AddTileLayer (body absent from the
repository sources).  Fails on a duplicate layer name; otherwise appends a
properties entry and appends an empty layer of the current map dimensions to
every context, incrementing the layer count. -/
def AddTileLayer (d : MapData) (name : String) (collision_enabled : Bool) :
    Bool × MapData :=
  if name ∈ GetTileLayerNames d then
    (false, setError d "A layer with this name already exists")
  else
    (true,
      { d with
        tile_layer_properties :=
          d.tile_layer_properties ++ [⟨name, true, collision_enabled⟩]
        all_tile_contexts := d.all_tile_contexts.map (Option.map (fun c =>
          { c with tile_layers :=
              c.tile_layers ++ [emptyTileLayer d.map_length d.map_height] }))
        tile_layer_count := d.tile_layer_count + 1
        map_modified := true })

/-- Modelled from the spec: MapData::DeleteTileLayer (body absent from the
repository sources).  Bounds-checked; removes the properties entry and the
layer at that index from every context, decrementing the layer count. -/
def DeleteTileLayer (d : MapData) (layer_index : Nat) : Bool × MapData :=
  if layer_index < d.tile_layer_count then
    (true,
      { d with
        tile_layer_properties := d.tile_layer_properties.eraseIdx layer_index
        all_tile_contexts := d.all_tile_contexts.map (Option.map (fun c =>
          { c with tile_layers := c.tile_layers.eraseIdx layer_index }))
        tile_layer_count := d.tile_layer_count - 1
        map_modified := true })
  else
    (false, setError d "Invalid layer index given to DeleteTileLayer")

/-- Modelled from the spec: MapData::CloneTileLayer (body absent from the
repository sources).  Bounds-checked; appends a properties entry carrying a
generated unique name and appends a copy of the layer at that index in every
context, incrementing the layer count. -/
def CloneTileLayer (d : MapData) (layer_index : Nat) : Bool × MapData :=
  if layer_index < d.tile_layer_count then
    match d.tile_layer_properties[layer_index]? with
    | some p =>
        (true,
          { d with
            tile_layer_properties := d.tile_layer_properties ++
              [{ p with layer_name := CreateCloneName p.layer_name (GetTileLayerNames d) }]
            all_tile_contexts := d.all_tile_contexts.map (Option.map (fun c =>
              { c with tile_layers :=
                  c.tile_layers ++ (c.tile_layers[layer_index]?).toList }))
            tile_layer_count := d.tile_layer_count + 1
            map_modified := true })
    | none => (false, setError d "Invalid layer index given to CloneTileLayer")
  else
    (false, setError d "Invalid layer index given to CloneTileLayer")

/-- The public layer-list operations of the claims: add, delete, clone and
swap (the move wrappers forward to swap). -/
inductive LayerOp where
  | add (name : String) (collision_enabled : Bool)
  | del (layer_index : Nat)
  | clone (layer_index : Nat)
  | swap (index_one index_two : Nat)

/-- Applies one public layer operation, keeping the resulting state whether
the call succeeded or failed. -/
def applyLayerOp (d : MapData) : LayerOp → MapData
  | .add name ce => (AddTileLayer d name ce).2
  | .del i => (DeleteTileLayer d i).2
  | .clone i => (CloneTileLayer d i).2
  | .swap i j => (SwapTileLayers d i j).2

/-- Modelled from the spec: MapData::CreateData (body absent from the
repository sources).  Refuses to overwrite loaded data; otherwise sets the
geometry and allocates one base context holding one default layer. -/
def CreateData (d : MapData) (map_length map_height : Nat) : Bool × MapData :=
  if d.tile_context_count > 0 then
    (false, setError d "Map data already exists")
  else
    (true,
      { d with
        map_length := map_length
        map_height := map_height
        tile_layer_count := 1
        tile_context_count := 1
        all_tile_contexts :=
          [some ⟨"Base", 1, INVALID_CONTEXT, [emptyTileLayer map_length map_height]⟩] ++
            List.replicate (MAX_CONTEXTS - 1) none
        tile_layer_properties := [⟨"Ground", true, true⟩]
        map_modified := true })

/-- Modelled from the spec: MapData::LoadData (body absent from the
repository sources).  The parse of the named file is abstracted as an
optional fully-built state: none stands for any file open or parse failure.
The call is rejected when map data is already loaded, and on any failure the
previous state is kept whole, the load building into a temporary structure
swapped in only on full success. -/
def LoadData (d : MapData) (filename : String) (file_data : Option MapData) :
    Bool × MapData :=
  if d.tile_context_count > 0 then
    (false, setError d "Map data is already loaded")
  else
    match file_data with
    | none => (false, setError d "Failed to load the map file")
    | some m => (true, { m with map_filename := filename, error_message := d.error_message })

/-- Resize of one tile row: cells are kept from the left, removed from or
appended at the right. -/
def resizeRow (row : List Int) (map_length : Nat) : List Int :=
  row.take map_length ++ List.replicate (map_length - row.length) NO_TILE

/-- Resize of one layer grid: rows are kept from the top, removed from or
appended at the bottom, each row resized at the right. -/
def resizeGrid (grid : List (List Int)) (map_length map_height : Nat) :
    List (List Int) :=
  (grid.map (fun r => resizeRow r map_length)).take map_height ++
    List.replicate (map_height - grid.length) (List.replicate map_length NO_TILE)

/-- Resize of one tile layer to the given dimensions. -/
def resizeLayer (l : TileLayer) (map_length map_height : Nat) : TileLayer :=
  ⟨resizeGrid l.grid map_length map_height⟩

/-- Resize of every layer of one context to the given dimensions. -/
def resizeContext (map_length map_height : Nat) (c : TileContext) : TileContext :=
  { c with tile_layers := c.tile_layers.map (fun l => resizeLayer l map_length map_height) }

/-- Modelled from the spec: MapData::ResizeMap (body absent from the
repository sources).  Grows or shrinks every layer of every context by
appending or removing rows at the bottom and columns at the right only, then
records the new geometry. -/
def ResizeMap (d : MapData) (map_length map_height : Nat) : MapData :=
  { d with
    map_length := map_length
    map_height := map_height
    all_tile_contexts :=
      d.all_tile_contexts.map (Option.map (resizeContext map_length map_height))
    map_modified := true }

/-- Number of live base contexts, the contexts that inherit from nothing. -/
def baseContextCount (d : MapData) : Nat :=
  (liveContexts d).countP (fun c => c.inherited_context_id == INVALID_CONTEXT)

/-- Identifier remapping applied to every surviving context after the context
with the given identifier has been deleted: identifiers and inheritance
references above the deleted identifier shift down by one. -/
def remapAfterDelete (deleted_id : Int) (c : TileContext) : TileContext :=
  { c with
    context_id :=
      if deleted_id < c.context_id then c.context_id - 1 else c.context_id
    inherited_context_id :=
      if deleted_id < c.inherited_context_id then c.inherited_context_id - 1
      else c.inherited_context_id }

/-- Modelled from the spec: MapData::DeleteTileContext (body absent from the
repository sources).  Fails when the identifier does not resolve, when it
names the final base context, or when another context inherits from it; on
success the slot is freed, the slot array is compacted and every surviving
identifier and inheritance reference above the deleted one shifts down. -/
def DeleteTileContext (d : MapData) (context_id : Int) : Bool × MapData :=
  match FindTileContextByID d context_id with
  | none => (false, setError d "No tile context found for this id")
  | some ctx =>
      if ctx.inherited_context_id = INVALID_CONTEXT ∧ baseContextCount d = 1 then
        (false, setError d "The final base context can not be deleted")
      else if (liveContexts d).any (fun c => c.inherited_context_id == context_id) then
        (false, setError d "Another context inherits from this context")
      else
        (true,
          { d with
            all_tile_contexts :=
              ((d.all_tile_contexts.eraseIdx (context_id - 1).toNat).map
                (Option.map (remapAfterDelete context_id))) ++ [none]
            tile_context_count := d.tile_context_count - 1
            map_modified := true })

/-- Fuel-bounded walk along the inheritance chain starting at current,
reporting whether the chain reaches the target identifier.  The fuel
MAX_CONTEXTS covers every chain of live contexts. -/
def chainContains (d : MapData) : Nat → Int → Int → Bool
  | 0, _, _ => false
  | fuel + 1, current, target =>
      if current == target then true
      else
        match FindTileContextByID d current with
        | none => false
        | some c => chainContains d fuel c.inherited_context_id target

/-- Modelled from the spec: MapData::ChangeInheritanceTileContext (body
absent from the repository sources).  Fails on self-inheritance, on an
unresolvable target other than the sentinel, or when the inheritance chain
followed from the target would revisit the context being changed; on success
the inheritance reference of that context is replaced. -/
def ChangeInheritanceTileContext (d : MapData) (context_id inherit_id : Int) :
    Bool × MapData :=
  if inherit_id = context_id then
    (false, setError d "A context can not inherit from itself")
  else
    match FindTileContextByID d context_id with
    | none => (false, setError d "No tile context found for this id")
    | some _ =>
        if inherit_id ≠ INVALID_CONTEXT ∧ (FindTileContextByID d inherit_id).isNone then
          (false, setError d "No tile context found for the inherit id")
        else if inherit_id ≠ INVALID_CONTEXT ∧
            chainContains d MAX_CONTEXTS inherit_id context_id then
          (false, setError d "The inheritance change would create a cycle")
        else
          (true,
            { d with
              all_tile_contexts := d.all_tile_contexts.map (Option.map (fun c =>
                if c.context_id = context_id then
                  { c with inherited_context_id := inherit_id }
                else c))
              map_modified := true })

/-- From the header: RemoveInheritanceTileContext forwards to
ChangeInheritanceTileContext with the sentinel identifier. -/
def RemoveInheritanceTileContext (d : MapData) (context_id : Int) : Bool × MapData :=
  ChangeInheritanceTileContext d context_id INVALID_CONTEXT

/-- Cross-context layer alignment: the shared properties list has exactly
layer-count entries and every live context carries exactly one layer per
slot. -/
@[reducible] def LayersAligned (d : MapData) : Prop :=
  d.tile_layer_properties.length = d.tile_layer_count ∧
    ∀ c ∈ liveContexts d, c.tile_layers.length = d.tile_layer_count

/-- Geometry alignment: every layer of every live context has exactly the
map height in rows and the map length in row cells. -/
@[reducible] def DimsAligned (d : MapData) : Prop :=
  ∀ c ∈ liveContexts d, ∀ l ∈ c.tile_layers,
    l.grid.length = d.map_height ∧ ∀ r ∈ l.grid, r.length = d.map_length

/-- Well-formedness of the context slot array: the live contexts sit
contiguously at the front of the MAX_CONTEXTS-slot vector, the live count
matches the stored count, the context in slot i carries identifier i + 1 and
every inheritance reference is the sentinel or a live identifier. -/
@[reducible] def SlotsWF (d : MapData) : Prop :=
  d.all_tile_contexts =
      (liveContexts d).map some ++
        List.replicate (MAX_CONTEXTS - d.tile_context_count) none ∧
    (liveContexts d).length = d.tile_context_count ∧
    d.tile_context_count ≤ MAX_CONTEXTS ∧
    (∀ j, j < (liveContexts d).length →
      ((liveContexts d)[j]?).map (fun c => c.context_id) = some ((j : Int) + 1)) ∧
    (∀ c ∈ liveContexts d, c.inherited_context_id = INVALID_CONTEXT ∨
      (1 ≤ c.inherited_context_id ∧
        c.inherited_context_id ≤ (d.tile_context_count : Int)))

/-- The name of the inheritance parent of the live context in slot j, none
for a base context or a dangling reference. -/
def parentNameAt (d : MapData) (j : Nat) : Option String :=
  ((liveContexts d)[j]?).bind (fun c =>
    if c.inherited_context_id = INVALID_CONTEXT then none
    else (FindTileContextByID d c.inherited_context_id).map (fun p => p.context_name))

/-- The conclusion of the context-deletion compaction property: after a
successful deletion of identifier k, the slot array stays contiguous, slot j
carries identifier j + 1, every surviving inheritance reference resolves,
and the survivor that sat in slot j keeps its name and the name of its
inheritance parent at its new slot. -/
@[reducible] def DeleteCompactConcl (d : MapData) (k : Int) (d₂ : MapData) : Prop :=
  d₂.all_tile_contexts =
      (liveContexts d₂).map some ++
        List.replicate (MAX_CONTEXTS - d₂.tile_context_count) none ∧
    (liveContexts d₂).length = d₂.tile_context_count ∧
    d₂.tile_context_count = d.tile_context_count - 1 ∧
    (∀ j, j < (liveContexts d₂).length →
      ((liveContexts d₂)[j]?).map (fun c => c.context_id) = some ((j : Int) + 1)) ∧
    (∀ c ∈ liveContexts d₂, c.inherited_context_id ≠ INVALID_CONTEXT →
      (FindTileContextByID d₂ c.inherited_context_id).isSome) ∧
    (∀ j, j < (liveContexts d).length → j ≠ (k - 1).toNat →
      (((liveContexts d₂)[if j < (k - 1).toNat then j else j - 1]?).map
          (fun c => c.context_name) =
        ((liveContexts d)[j]?).map (fun c => c.context_name)) ∧
      parentNameAt d₂ (if j < (k - 1).toNat then j else j - 1) = parentNameAt d j)

/-- A single tile context with one 1-by-1 layer, for concrete witnesses. -/
def mkContext (name : String) (id inh : Int) (v : Int) : TileContext :=
  ⟨name, id, inh, [⟨[[v]]⟩]⟩

/-- A small well-formed map holding the given live contexts, each expected to
carry one 1-by-1 layer, for concrete witnesses. -/
def exMapOf (cs : List TileContext) : MapData :=
  { map_filename := "map.lua"
    map_name := "Example"
    map_length := 1
    map_height := 1
    map_modified := false
    tile_layer_count := 1
    tile_context_count := cs.length
    tilesets := []
    all_tile_contexts := cs.map some ++ List.replicate (MAX_CONTEXTS - cs.length) none
    tile_layer_properties := [⟨"Ground", true, true⟩]
    error_message := "" }

/-- One base context. -/
def exMap1 : MapData := exMapOf [mkContext "A" 1 (-1) 1]

/-- Three contexts: A is base, B and C both inherit from A. -/
def exMap3 : MapData :=
  exMapOf [mkContext "A" 1 (-1) 1, mkContext "B" 2 1 2, mkContext "C" 3 1 3]

/-- Three contexts in a chain: A is base, B inherits A, C inherits B. -/
def exMap4 : MapData :=
  exMapOf [mkContext "A" 1 (-1) 1, mkContext "B" 2 1 2, mkContext "C" 3 2 3]

theorem filterMap_id_map_optionMap {α β : Type} (f : α → β) (l : List (Option α)) :
    (l.map (Option.map f)).filterMap id = (l.filterMap id).map f := by
  induction l with
  | nil => rfl
  | cons a l ih => cases a <;> simp [List.filterMap_cons, ih]

theorem filterMap_id_shape {α : Type} (l : List α) (m : Nat) :
    ((l.map some ++ List.replicate m none).filterMap id : List α) = l := by
  induction l with
  | nil =>
      induction m with
      | zero => rfl
      | succ m ih => simp [List.replicate_succ, List.filterMap_cons, ih]
  | cons a l ih => simp [List.filterMap_cons, ih]

theorem listSwap_length {α : Type} (l : List α) (i j : Nat) :
    (listSwap l i j).length = l.length := by
  unfold listSwap
  rcases h₁ : l[i]? with _ | a <;> rcases h₂ : l[j]? with _ | b <;>
    simp [List.length_set]

theorem setError_content (d : MapData) (msg : String) :
    (setError d msg).content = d.content := rfl

theorem liveContexts_setError (d : MapData) (msg : String) :
    liveContexts (setError d msg) = liveContexts d := rfl

theorem aligned_applyLayerOp (d : MapData) (op : LayerOp)
    (h : LayersAligned d) : LayersAligned (applyLayerOp d op) := by
  obtain ⟨hp, hc⟩ := h
  cases op with
  | add name ce =>
      simp only [applyLayerOp]
      unfold AddTileLayer
      split
      · exact ⟨hp, hc⟩
      · refine ⟨by simp [hp], ?_⟩
        intro c hmem
        simp only [liveContexts, filterMap_id_map_optionMap] at hmem
        rcases List.mem_map.mp hmem with ⟨c₀, hc₀, rfl⟩
        simp [hc c₀ hc₀]
  | del i =>
      simp only [applyLayerOp]
      unfold DeleteTileLayer
      split
      · next hlt =>
          refine ⟨?_, ?_⟩
          · show (d.tile_layer_properties.eraseIdx i).length = d.tile_layer_count - 1
            rw [List.length_eraseIdx, hp, if_pos hlt]
          · intro c hmem
            simp only [liveContexts, filterMap_id_map_optionMap] at hmem
            rcases List.mem_map.mp hmem with ⟨c₀, hc₀, rfl⟩
            show (c₀.tile_layers.eraseIdx i).length = d.tile_layer_count - 1
            rw [List.length_eraseIdx, hc c₀ hc₀, if_pos hlt]
      · exact ⟨hp, hc⟩
  | clone i =>
      simp only [applyLayerOp]
      unfold CloneTileLayer
      split
      · next hlt =>
          split
          · refine ⟨by simp [hp], ?_⟩
            intro c hmem
            simp only [liveContexts, filterMap_id_map_optionMap] at hmem
            rcases List.mem_map.mp hmem with ⟨c₀, hc₀, rfl⟩
            have hlen : c₀.tile_layers.length = d.tile_layer_count := hc c₀ hc₀
            have hsome : c₀.tile_layers[i]? = some (c₀.tile_layers.get ⟨i, hlen ▸ hlt⟩) :=
              List.getElem?_eq_getElem (hlen ▸ hlt)
            simp [hsome, hlen]
          · exact ⟨hp, hc⟩
      · exact ⟨hp, hc⟩
  | swap i j =>
      simp only [applyLayerOp]
      unfold SwapTileLayers
      split
      · refine ⟨by simp [listSwap_length, hp], ?_⟩
        intro c hmem
        simp only [liveContexts, filterMap_id_map_optionMap] at hmem
        rcases List.mem_map.mp hmem with ⟨c₀, hc₀, rfl⟩
        simp [listSwap_length, hc c₀ hc₀]
      · exact ⟨hp, hc⟩

theorem aligned_foldl (ops : List LayerOp) (d : MapData) (h : LayersAligned d) :
    LayersAligned (ops.foldl applyLayerOp d) := by
  induction ops generalizing d with
  | nil => exact h
  | cons op ops ih => exact ih _ (aligned_applyLayerOp d op h)

theorem aligned_createData (map_length map_height : Nat) :
    LayersAligned (CreateData MapData.empty map_length map_height).2 := by
  refine ⟨rfl, ?_⟩
  intro c hmem
  have hlive : liveContexts (CreateData MapData.empty map_length map_height).2 =
      [⟨"Base", 1, INVALID_CONTEXT, [emptyTileLayer map_length map_height]⟩] := rfl
  rw [hlive] at hmem
  simp only [List.mem_singleton] at hmem
  subst hmem
  rfl

/-- C1: starting from a freshly initialized map, after every prefix of any
sequence of the public layer operations (AddTileLayer, DeleteTileLayer,
CloneTileLayer, SwapTileLayers) the shared properties list has exactly
layer-count entries and every live context carries exactly one layer per
slot. -/
theorem layer_ops_keep_properties_count_and_context_layers_aligned
    (map_length map_height : Nat) (ops : List LayerOp) (k : Nat) :
    LayersAligned (List.foldl applyLayerOp
      (CreateData MapData.empty map_length map_height).2 (List.take k ops)) :=
  aligned_foldl (List.take k ops) _ (aligned_createData map_length map_height)

/-- C10: evaluation of the header code at the failing input.  On a
well-formed one-layer map (layer count 1, properties list of length 1) the
inline guard layer_index <= _tile_layer_count admits layer_index = 1, where
the properties vector element access is one past the end of the vector:
undefined behavior in the C++ source, observable as none in the embedding.
The claim says the guard only ever admits layer_index strictly below the
properties list length, so the code contradicts it. -/
theorem visibility_and_collision_toggles_admit_out_of_range_access :
    ShowTileLayer exMap1 1 = none ∧ HideTileLayer exMap1 1 = none ∧
      EnableTileLayerCollision exMap1 1 = none ∧
      DisableTileLayerCollision exMap1 1 = none :=
  ⟨rfl, rfl, rfl, rfl⟩

theorem delete_fail_sets_error (d : MapData) (msg : String) (context_id : Int)
    (h : (DeleteTileContext d context_id).1 = false) :
    (DeleteTileContext (setError d msg) context_id).2.error_message =
      (DeleteTileContext d context_id).2.error_message ∧
    (DeleteTileContext d context_id).2.error_message ≠ "" := by
  have hfind : FindTileContextByID (setError d msg) context_id =
      FindTileContextByID d context_id := rfl
  unfold DeleteTileContext at h ⊢
  cases hf : FindTileContextByID d context_id with
  | none =>
      simp only [hfind, hf]
      exact ⟨rfl, show ("No tile context found for this id" : String) ≠ "" by decide⟩
  | some ctx =>
      simp only [hfind, hf] at h ⊢
      rcases Decidable.em
          (ctx.inherited_context_id = INVALID_CONTEXT ∧ baseContextCount d = 1) with
        h1 | h1
      · rw [if_pos h1,
          if_pos (show ctx.inherited_context_id = INVALID_CONTEXT ∧
            baseContextCount (setError d msg) = 1 from h1)]
        exact ⟨rfl,
          show ("The final base context can not be deleted" : String) ≠ "" by decide⟩
      · rw [if_neg h1] at h ⊢
        rw [if_neg (show ¬(ctx.inherited_context_id = INVALID_CONTEXT ∧
            baseContextCount (setError d msg) = 1) from h1)]
        rcases Decidable.em
            ((liveContexts d).any
              (fun c => c.inherited_context_id == context_id) = true) with h2 | h2
        · rw [if_pos h2,
            if_pos (show (liveContexts (setError d msg)).any
              (fun c => c.inherited_context_id == context_id) = true from h2)]
          exact ⟨rfl,
            show ("Another context inherits from this context" : String) ≠ "" by decide⟩
        · rw [if_neg h2] at h
          exact absurd h (by simp)

/-- C8: GetErrorMessage returns the stored error message and clears the
single pending-error slot, so a second consecutive call returns the empty
string; and a failing operation (DeleteTileContext is the representative
modelled faller) stores a non-empty message that does not depend on whatever
unread message was stored before it — the old message is overwritten. -/
theorem get_error_message_clears_and_failing_calls_overwrite (d : MapData) :
    (GetErrorMessage d).1 = d.error_message ∧
    (GetErrorMessage d).2.error_message = "" ∧
    (GetErrorMessage ((GetErrorMessage d).2)).1 = "" ∧
    ∀ msg context_id, (DeleteTileContext d context_id).1 = false →
      (DeleteTileContext (setError d msg) context_id).2.error_message =
        (DeleteTileContext d context_id).2.error_message ∧
      (DeleteTileContext d context_id).2.error_message ≠ "" :=
  ⟨rfl, rfl, rfl, fun msg context_id h => delete_fail_sets_error d msg context_id h⟩

theorem get_error_message_clears_witness :
    (DeleteTileContext (setError exMap1 "stale message") 1).2.error_message =
      (DeleteTileContext exMap1 1).2.error_message ∧
    (DeleteTileContext exMap1 1).2.error_message ≠ "" :=
  (get_error_message_clears_and_failing_calls_overwrite exMap1).2.2.2
    "stale message" 1 (by decide)

/-- C7: the move wrappers are exactly SwapTileLayers at layer_index - 1 and
layer_index + 1 in uint32 arithmetic, and since SwapTileLayers requires both
indices strictly below the layer count, moving the top layer up (index 0,
whose decrement wraps to 2^32 - 1) and moving the bottom layer down (index
+ 1 equal to the count) both fail and leave the map content unchanged. -/
theorem move_layer_wrappers_forward_to_swap_and_fail_at_boundaries
    (d : MapData) (layer_index : Nat) :
    MoveTileLayerUp d layer_index =
      SwapTileLayers d layer_index ((layer_index + (UINT32_MOD - 1)) % UINT32_MOD) ∧
    MoveTileLayerDown d layer_index =
      SwapTileLayers d layer_index ((layer_index + 1) % UINT32_MOD) ∧
    (d.tile_layer_count < UINT32_MOD →
      (MoveTileLayerUp d 0).1 = false ∧ (MoveTileLayerUp d 0).2.content = d.content) ∧
    (layer_index + 1 = d.tile_layer_count → d.tile_layer_count < UINT32_MOD →
      (MoveTileLayerDown d layer_index).1 = false ∧
        (MoveTileLayerDown d layer_index).2.content = d.content) := by
  refine ⟨rfl, rfl, ?_, ?_⟩
  · intro hcount
    have hpos : 0 < UINT32_MOD := by norm_num [UINT32_MOD]
    have hmod : (0 + (UINT32_MOD - 1)) % UINT32_MOD = UINT32_MOD - 1 :=
      Nat.mod_eq_of_lt (by omega)
    unfold MoveTileLayerUp SwapTileLayers
    rw [hmod, if_neg (by omega)]
    exact ⟨rfl, rfl⟩
  · intro hbottom hcount
    have hmod : (layer_index + 1) % UINT32_MOD = layer_index + 1 :=
      Nat.mod_eq_of_lt (by omega)
    unfold MoveTileLayerDown SwapTileLayers
    rw [hmod, if_neg (by omega)]
    exact ⟨rfl, rfl⟩

theorem move_layer_wrappers_witness :
    (MoveTileLayerUp exMap1 0).1 = false ∧
      (MoveTileLayerUp exMap1 0).2.content = exMap1.content ∧
      (MoveTileLayerDown exMap1 0).1 = false ∧
      (MoveTileLayerDown exMap1 0).2.content = exMap1.content := by
  have h := move_layer_wrappers_forward_to_swap_and_fail_at_boundaries exMap1 0
  have hcount : exMap1.tile_layer_count < UINT32_MOD := by norm_num [exMap1, exMapOf, UINT32_MOD]
  have hup := h.2.2.1 hcount
  have hdown := h.2.2.2 (by norm_num [exMap1, exMapOf]) hcount
  exact ⟨hup.1, hup.2, hdown.1, hdown.2⟩

/-- C5: LoadData refuses to load when map data is already present, and on
every failing return the map content is exactly what it was before the call,
the load building into a temporary structure swapped in only on success. -/
theorem load_data_rejects_loaded_map_and_failure_preserves_state
    (d : MapData) (filename : String) (file_data : Option MapData) :
    (0 < d.tile_context_count → (LoadData d filename file_data).1 = false) ∧
    ((LoadData d filename file_data).1 = false →
      (LoadData d filename file_data).2.content = d.content) := by
  unfold LoadData
  rcases Decidable.em (d.tile_context_count > 0) with h | h
  · rw [if_pos h]
    exact ⟨fun _ => rfl, fun _ => rfl⟩
  · rw [if_neg h]
    cases file_data with
    | none => exact ⟨fun hc => absurd hc h, fun _ => rfl⟩
    | some m => exact ⟨fun hc => absurd hc h, fun hfalse => by simp at hfalse⟩

theorem load_data_witness :
    (LoadData exMap1 "other_map.lua" (some exMap3)).1 = false ∧
      (LoadData exMap1 "other_map.lua" (some exMap3)).2.content = exMap1.content := by
  have h := load_data_rejects_loaded_map_and_failure_preserves_state
    exMap1 "other_map.lua" (some exMap3)
  have h1 := h.1 (by decide)
  exact ⟨h1, h.2 h1⟩

theorem resizeRow_grow (r : List Int) (L : Nat) (h : r.length ≤ L) :
    resizeRow r L = r ++ List.replicate (L - r.length) NO_TILE := by
  unfold resizeRow
  rw [List.take_of_length_le h]

theorem resizeRow_roundtrip (r : List Int) (L₀ L : Nat) (hr : r.length = L₀)
    (h : L₀ ≤ L) : resizeRow (resizeRow r L) L₀ = r := by
  rw [resizeRow_grow r L (by omega)]
  unfold resizeRow
  have htake : (r ++ List.replicate (L - r.length) NO_TILE).take L₀ = r := by
    rw [← hr]
    exact List.take_left r _
  have hlen : (r ++ List.replicate (L - r.length) NO_TILE).length = L := by
    simp only [List.length_append, List.length_replicate]
    omega
  rw [htake, hlen]
  have hz : L₀ - L = 0 := by omega
  simp [hz]

theorem resizeGrid_grow (g : List (List Int)) (L H : Nat) (hg : g.length ≤ H) :
    resizeGrid g L H = g.map (fun r => resizeRow r L) ++
      List.replicate (H - g.length) (List.replicate L NO_TILE) := by
  unfold resizeGrid
  rw [List.take_of_length_le (by simp [hg])]

theorem resizeGrid_roundtrip (g : List (List Int)) (L₀ H₀ L H : Nat)
    (hh : g.length = H₀) (hr : ∀ r ∈ g, r.length = L₀)
    (hL : L₀ ≤ L) (hH : H₀ ≤ H) :
    resizeGrid (resizeGrid g L H) L₀ H₀ = g := by
  rw [resizeGrid_grow g L H (by omega)]
  unfold resizeGrid
  rw [List.map_append, List.map_map]
  have hcomp : g.map ((fun r => resizeRow r L₀) ∘ (fun r => resizeRow r L)) = g := by
    rw [List.map_congr_left (fun r hm =>
      show ((fun r => resizeRow r L₀) ∘ (fun r => resizeRow r L)) r = id r from
        resizeRow_roundtrip r L₀ L (hr r hm) hL)]
    exact List.map_id g
  rw [hcomp]
  have htake : (g ++ (List.replicate (H - g.length) (List.replicate L NO_TILE)).map
      (fun r => resizeRow r L₀)).take H₀ = g := by
    rw [← hh]
    exact List.take_left g _
  have hlen : ((g.map (fun r => resizeRow r L)).length +
      (H - g.length) = H) := by
    simp only [List.length_map]
    omega
  rw [htake]
  simp only [List.length_append, List.length_map, List.length_replicate]
  have hz : H₀ - (g.length + (H - g.length)) = 0 := by omega
  rw [hz]
  simp

/-- C9: for a map whose layers all match the current geometry, growing to any
larger dimensions and resizing back restores every layer of every context
exactly, and the growth itself only appends filler columns at the right of
each existing row and filler rows at the bottom. -/
theorem resize_map_grow_then_shrink_restores_layers (d : MapData) (L H : Nat)
    (hL : d.map_length ≤ L) (hH : d.map_height ≤ H) (hdims : DimsAligned d) :
    (ResizeMap (ResizeMap d L H) d.map_length d.map_height).all_tile_contexts =
        d.all_tile_contexts ∧
      (ResizeMap (ResizeMap d L H) d.map_length d.map_height).map_length =
        d.map_length ∧
      (ResizeMap (ResizeMap d L H) d.map_length d.map_height).map_height =
        d.map_height ∧
      ∀ c ∈ liveContexts d, ∀ l ∈ c.tile_layers,
        resizeGrid l.grid L H =
          l.grid.map (fun r => r ++ List.replicate (L - d.map_length) NO_TILE) ++
            List.replicate (H - d.map_height) (List.replicate L NO_TILE) := by
  refine ⟨?_, rfl, rfl, ?_⟩
  · show ((d.all_tile_contexts.map _).map _) = d.all_tile_contexts
    rw [List.map_map]
    have hstep : ∀ x ∈ d.all_tile_contexts,
        (Option.map (resizeContext d.map_length d.map_height) ∘
          Option.map (resizeContext L H)) x = id x := by
      intro x hx
      cases x with
      | none => rfl
      | some c =>
          have hmem : c ∈ liveContexts d := List.mem_filterMap.mpr ⟨some c, hx, rfl⟩
          show some (resizeContext d.map_length d.map_height (resizeContext L H c)) =
            some c
          unfold resizeContext
          rw [List.map_map]
          have hlayers : c.tile_layers.map
              ((fun l => resizeLayer l d.map_length d.map_height) ∘
                (fun l => resizeLayer l L H)) = c.tile_layers := by
            have hpt : ∀ l ∈ c.tile_layers,
                ((fun l => resizeLayer l d.map_length d.map_height) ∘
                  (fun l => resizeLayer l L H)) l = id l := by
              intro l hl
              obtain ⟨hgl, hrl⟩ := hdims c hmem l hl
              show resizeLayer (resizeLayer l L H) d.map_length d.map_height = l
              unfold resizeLayer
              rw [resizeGrid_roundtrip l.grid d.map_length d.map_height L H hgl hrl hL hH]
            rw [List.map_congr_left hpt, List.map_id]
          rw [hlayers]
    rw [List.map_congr_left hstep, List.map_id]
  · intro c hmem l hl
    obtain ⟨hgl, hrl⟩ := hdims c hmem l hl
    rw [resizeGrid_grow l.grid L H (by omega)]
    congr 1
    · exact List.map_congr_left (fun r hm => by
        rw [resizeRow_grow r L (by rw [hrl r hm]; omega), hrl r hm])
    · rw [hgl]

theorem resize_map_roundtrip_witness :
    (ResizeMap (ResizeMap exMap1 3 2) exMap1.map_length exMap1.map_height).all_tile_contexts =
        exMap1.all_tile_contexts ∧
      (ResizeMap (ResizeMap exMap1 3 2) exMap1.map_length exMap1.map_height).map_length =
        exMap1.map_length := by
  have h := resize_map_grow_then_shrink_restores_layers exMap1 3 2
    (by decide) (by decide) (by decide)
  exact ⟨h.1, h.2.1⟩

theorem find?_map_id_preserving (g : TileContext → TileContext)
    (hg : ∀ c, (g c).context_id = c.context_id) (l : List TileContext) (q : Int) :
    (l.map g).find? (fun c => c.context_id == q) =
      Option.map g (l.find? (fun c => c.context_id == q)) := by
  rw [List.find?_map]
  have hfun : ((fun c => c.context_id == q) ∘ g) = (fun c => c.context_id == q) := by
    funext c
    simp [Function.comp, hg]
  rw [hfun]

/-- C4: ChangeInheritanceTileContext fails and leaves content unchanged on
self-inheritance, on a non-sentinel target that does not resolve, and when
following the inheritance chain from the target would revisit the context
being changed (cycles of any length); on success exactly the inheritance
reference of that context is replaced and every other context lookup is
untouched. -/
theorem change_inheritance_rejects_self_dangling_and_cycles
    (d : MapData) (context_id inherit_id : Int) :
    (inherit_id = context_id →
      (ChangeInheritanceTileContext d context_id inherit_id).1 = false ∧
      (ChangeInheritanceTileContext d context_id inherit_id).2.content = d.content) ∧
    (inherit_id ≠ INVALID_CONTEXT → FindTileContextByID d inherit_id = none →
      (ChangeInheritanceTileContext d context_id inherit_id).1 = false ∧
      (ChangeInheritanceTileContext d context_id inherit_id).2.content = d.content) ∧
    (inherit_id ≠ INVALID_CONTEXT →
      chainContains d MAX_CONTEXTS inherit_id context_id = true →
      (ChangeInheritanceTileContext d context_id inherit_id).1 = false ∧
      (ChangeInheritanceTileContext d context_id inherit_id).2.content = d.content) ∧
    ((ChangeInheritanceTileContext d context_id inherit_id).1 = true →
      ∃ ctx, FindTileContextByID d context_id = some ctx ∧
        FindTileContextByID (ChangeInheritanceTileContext d context_id inherit_id).2
            context_id = some { ctx with inherited_context_id := inherit_id } ∧
        ∀ q, q ≠ context_id →
          FindTileContextByID (ChangeInheritanceTileContext d context_id inherit_id).2 q =
            FindTileContextByID d q) := by
  unfold ChangeInheritanceTileContext
  by_cases h0 : inherit_id = context_id
  · rw [if_pos h0]
    exact ⟨fun _ => ⟨rfl, rfl⟩, fun _ _ => ⟨rfl, rfl⟩, fun _ _ => ⟨rfl, rfl⟩,
      fun hsucc => by simp at hsucc⟩
  · rw [if_neg h0]
    cases hf : FindTileContextByID d context_id with
    | none =>
        exact ⟨fun hh => absurd hh h0, fun _ _ => ⟨rfl, rfl⟩, fun _ _ => ⟨rfl, rfl⟩,
          fun hsucc => by simp at hsucc⟩
    | some ctx =>
        by_cases h2 : inherit_id ≠ INVALID_CONTEXT ∧
            (FindTileContextByID d inherit_id).isNone
        · rw [if_pos h2]
          exact ⟨fun hh => absurd hh h0, fun _ _ => ⟨rfl, rfl⟩, fun _ _ => ⟨rfl, rfl⟩,
            fun hsucc => by simp at hsucc⟩
        · rw [if_neg h2]
          by_cases h3 : inherit_id ≠ INVALID_CONTEXT ∧
              chainContains d MAX_CONTEXTS inherit_id context_id
          · rw [if_pos h3]
            exact ⟨fun hh => absurd hh h0, fun _ _ => ⟨rfl, rfl⟩, fun _ _ => ⟨rfl, rfl⟩,
              fun hsucc => by simp at hsucc⟩
          · rw [if_neg h3]
            refine ⟨fun hh => absurd hh h0, ?_, ?_, ?_⟩
            · intro hne hnone
              exact absurd ⟨hne, by rw [hnone]; rfl⟩ h2
            · intro hne hchain
              exact absurd ⟨hne, hchain⟩ h3
            · intro _
              have hid : ctx.context_id = context_id := by
                have := List.find?_some hf
                simpa using this
              have hgid : ∀ c : TileContext,
                  ((fun c => if c.context_id = context_id then
                      { c with inherited_context_id := inherit_id }
                    else c) c).context_id = c.context_id := by
                intro c
                by_cases hc : c.context_id = context_id <;> simp [hc]
              refine ⟨ctx, rfl, ?_, ?_⟩
              · show ((d.all_tile_contexts.map _).filterMap id).find? _ = _
                rw [filterMap_id_map_optionMap, find?_map_id_preserving _ hgid]
                have hf' : List.find? (fun c => c.context_id == context_id)
                    (List.filterMap id d.all_tile_contexts) = some ctx := hf
                rw [hf']
                simp [hid]
              · intro q hq
                show ((d.all_tile_contexts.map _).filterMap id).find? _ =
                  FindTileContextByID d q
                rw [filterMap_id_map_optionMap, find?_map_id_preserving _ hgid]
                cases hfq : FindTileContextByID d q with
                | none =>
                    have hfq' : List.find? (fun c => c.context_id == q)
                        (List.filterMap id d.all_tile_contexts) = none := hfq
                    rw [hfq']
                    rfl
                | some p =>
                    have hfq' : List.find? (fun c => c.context_id == q)
                        (List.filterMap id d.all_tile_contexts) = some p := hfq
                    rw [hfq']
                    have hpq : p.context_id = q := by
                      have := List.find?_some hfq
                      simpa using this
                    simp [hpq, hq]

theorem change_inheritance_witness :
    (ChangeInheritanceTileContext exMap4 1 3).1 = false ∧
      (ChangeInheritanceTileContext exMap4 1 3).2.content = exMap4.content :=
  (change_inheritance_rejects_self_dangling_and_cycles exMap4 1 3).2.2.1
    (by decide) (by decide)

theorem digitChar_inj_lt :
    ∀ a, a < 10 → ∀ b, b < 10 → Nat.digitChar a = Nat.digitChar b → a = b := by
  decide

theorem map_digitChar_cancel :
    ∀ (l₁ l₂ : List Nat), (∀ x ∈ l₁, x < 10) → (∀ x ∈ l₂, x < 10) →
      l₁.map Nat.digitChar = l₂.map Nat.digitChar → l₁ = l₂ := by
  intro l₁
  induction l₁ with
  | nil =>
      intro l₂ _ _ h
      cases l₂ with
      | nil => rfl
      | cons b l₂ => simp at h
  | cons a l ih =>
      intro l₂ h₁ h₂ h
      cases l₂ with
      | nil => simp at h
      | cons b l₂ =>
          simp only [List.map_cons, List.cons.injEq] at h
          obtain ⟨hab, hl⟩ := h
          have hab' : a = b := digitChar_inj_lt a (h₁ a (by simp)) b (h₂ b (by simp)) hab
          subst hab'
          rw [ih l₂ (fun x hx => h₁ x (by simp [hx])) (fun x hx => h₂ x (by simp [hx])) hl]

theorem natDigitsAux_eq_digits :
    ∀ fuel n, n ≤ fuel → natDigitsAux fuel n = (Nat.digits 10 n).map Nat.digitChar := by
  intro fuel
  induction fuel with
  | zero =>
      intro n hn
      have : n = 0 := by omega
      subst this
      simp [natDigitsAux, Nat.digits_zero]
  | succ fuel ih =>
      intro n hn
      by_cases h0 : n = 0
      · subst h0
        simp [natDigitsAux, Nat.digits_zero]
      · have hpos : 0 < n := Nat.pos_of_ne_zero h0
        have hdiv : n / 10 < n := Nat.div_lt_self hpos (by norm_num)
        have hstep : natDigitsAux (fuel + 1) n =
            Nat.digitChar (n % 10) :: natDigitsAux fuel (n / 10) := by
          rw [show natDigitsAux (fuel + 1) n = (if n = 0 then [] else
            Nat.digitChar (n % 10) :: natDigitsAux fuel (n / 10)) from rfl, if_neg h0]
        rw [hstep, ih (n / 10) (by omega),
          Nat.digits_def' (by norm_num : 1 < 10) hpos, List.map_cons]

theorem natRepr_eq_digits (n : Nat) :
    natRepr n = (((Nat.digits 10 n).map Nat.digitChar).reverse).asString := by
  unfold natRepr
  rw [natDigitsAux_eq_digits n n le_rfl]

theorem natRepr_inj (m n : Nat) (h : natRepr m = natRepr n) : m = n := by
  rw [natRepr_eq_digits, natRepr_eq_digits] at h
  have h₁ : ((Nat.digits 10 m).map Nat.digitChar).reverse =
      ((Nat.digits 10 n).map Nat.digitChar).reverse := by
    simpa [List.asString] using congrArg String.data h
  rw [List.reverse_inj] at h₁
  have h₂ : Nat.digits 10 m = Nat.digits 10 n :=
    map_digitChar_cancel _ _
      (fun x hx => Nat.digits_lt_base (by norm_num) hx)
      (fun x hx => Nat.digits_lt_base (by norm_num) hx) h₁
  calc m = Nat.ofDigits 10 (Nat.digits 10 m) := (Nat.ofDigits_digits 10 m).symm
    _ = Nat.ofDigits 10 (Nat.digits 10 n) := by rw [h₂]
    _ = n := Nat.ofDigits_digits 10 n

theorem numberedClone_inj (name : String) (m n : Nat)
    (h : numberedClone name m = numberedClone name n) : m = n := by
  unfold numberedClone at h
  have hd := congrArg String.data h
  simp only [String.data_append, List.append_assoc] at hd
  have h₁ := List.append_cancel_left hd
  have h₂ := List.append_cancel_left h₁
  have h₃ : (natRepr m).data = (natRepr n).data := List.append_cancel_right h₂
  exact natRepr_inj m n (String.ext h₃)

theorem exists_free_numbered (name : String) (taken : List String) :
    ∃ k, k < taken.length + 1 ∧ numberedClone name (2 + k) ∉ taken := by
  by_contra hcon
  push_neg at hcon
  have hnd : ((List.range (taken.length + 1)).map
      (fun k => numberedClone name (2 + k))).Nodup :=
    List.Nodup.map
      (fun k₁ k₂ hk => by
        have := numberedClone_inj name (2 + k₁) (2 + k₂) hk
        omega)
      (List.nodup_range _)
  have hsub : ∀ x ∈ (List.range (taken.length + 1)).map
      (fun k => numberedClone name (2 + k)), x ∈ taken := by
    intro x hx
    rcases List.mem_map.mp hx with ⟨k, hk, rfl⟩
    exact hcon k (List.mem_range.mp hk)
  have hcard : ((List.range (taken.length + 1)).map
      (fun k => numberedClone name (2 + k))).toFinset.card = taken.length + 1 := by
    rw [List.toFinset_card_of_nodup hnd]
    simp
  have hsubf : ((List.range (taken.length + 1)).map
      (fun k => numberedClone name (2 + k))).toFinset ⊆ taken.toFinset := by
    intro x hx
    rw [List.mem_toFinset] at hx ⊢
    exact hsub x hx
  have hle := Finset.card_le_card hsubf
  have hle₂ := List.toFinset_card_le taken
  omega

theorem createCloneNameLoop_spec (name : String) (taken : List String) :
    ∀ fuel n, (∃ k, k < fuel ∧ numberedClone name (n + k) ∉ taken) →
      createCloneNameLoop name taken fuel n ∉ taken ∧
      ∃ k, createCloneNameLoop name taken fuel n = numberedClone name (n + k) ∧
        ∀ j, j < k → numberedClone name (n + j) ∈ taken := by
  intro fuel
  induction fuel with
  | zero =>
      rintro n ⟨k, hk, _⟩
      omega
  | succ fuel ih =>
      rintro n ⟨k, hk, hfree⟩
      by_cases hmem : numberedClone name n ∈ taken
      · have hk0 : k ≠ 0 := by
          rintro rfl
          simp only [Nat.add_zero] at hfree
          exact hfree hmem
        obtain ⟨hnot, k', hres, hprev⟩ := ih (n + 1)
          ⟨k - 1, by omega, by rw [show n + 1 + (k - 1) = n + k by omega]; exact hfree⟩
        have hstep : createCloneNameLoop name taken (fuel + 1) n =
            createCloneNameLoop name taken fuel (n + 1) := by
          rw [show createCloneNameLoop name taken (fuel + 1) n =
            (if numberedClone name n ∈ taken then
              createCloneNameLoop name taken fuel (n + 1)
            else numberedClone name n) from rfl, if_pos hmem]
        refine ⟨hstep ▸ hnot, k' + 1, ?_, ?_⟩
        · rw [hstep, hres, show n + 1 + k' = n + (k' + 1) by omega]
        · intro j hj
          cases j with
          | zero => simpa using hmem
          | succ i =>
              have := hprev i (by omega)
              rw [show n + 1 + i = n + (i + 1) by omega] at this
              exact this
      · have hstep : createCloneNameLoop name taken (fuel + 1) n =
            numberedClone name n := by
          rw [show createCloneNameLoop name taken (fuel + 1) n =
            (if numberedClone name n ∈ taken then
              createCloneNameLoop name taken fuel (n + 1)
            else numberedClone name n) from rfl, if_neg hmem]
        refine ⟨hstep ▸ hmem, 0, ?_, ?_⟩
        · rw [hstep, Nat.add_zero]
        · intro j hj
          omega

/-- C6: the clone-name generation always returns a name not on the taken
list, and the returned name is the first untaken entry of the candidate
sequence "name (Clone)", "name (Clone #2)", "name (Clone #3)", ... — every
earlier candidate is already taken. -/
theorem clone_name_is_fresh_and_first_in_order (name : String) (taken : List String) :
    CreateCloneName name taken ∉ taken ∧
    ∃ k, CreateCloneName name taken = cloneCandidate name k ∧
      ∀ j, j < k → cloneCandidate name j ∈ taken := by
  unfold CreateCloneName
  by_cases hbase : (name ++ " (Clone)") ∈ taken
  · rw [if_pos hbase]
    obtain ⟨k₀, hk₀, hfree⟩ := exists_free_numbered name taken
    obtain ⟨hnot, k, hres, hprev⟩ := createCloneNameLoop_spec name taken
      (taken.length + 1) 2 ⟨k₀, by omega, hfree⟩
    refine ⟨hnot, k + 1, ?_, ?_⟩
    · rw [hres, show (2 : Nat) + k = k + 2 by omega]
      rfl
    · intro j hj
      cases j with
      | zero => exact hbase
      | succ i =>
          have := hprev i (by omega)
          rw [show (2 : Nat) + i = i + 2 by omega] at this
          exact this
  · rw [if_neg hbase]
    exact ⟨hbase, 0, rfl, fun j hj => absurd hj (by omega)⟩

/-- C3: DeleteTileContext returns false and leaves the map content unchanged
when the identifier names the sole remaining base context, and likewise when
any live context inherits from the identified context. -/
theorem delete_context_fails_for_sole_base_and_for_inherited
    (d : MapData) (context_id : Int) :
    (∀ ctx, FindTileContextByID d context_id = some ctx →
      ctx.inherited_context_id = INVALID_CONTEXT → baseContextCount d = 1 →
      (DeleteTileContext d context_id).1 = false ∧
      (DeleteTileContext d context_id).2.content = d.content) ∧
    (∀ ctx c, FindTileContextByID d context_id = some ctx → c ∈ liveContexts d →
      c.inherited_context_id = context_id →
      (DeleteTileContext d context_id).1 = false ∧
      (DeleteTileContext d context_id).2.content = d.content) := by
  unfold DeleteTileContext
  constructor
  · intro ctx hf hbase hcount
    simp only [hf]
    rw [if_pos ⟨hbase, hcount⟩]
    exact ⟨rfl, rfl⟩
  · intro ctx c hf hc hinher
    simp only [hf]
    by_cases h₁ : ctx.inherited_context_id = INVALID_CONTEXT ∧ baseContextCount d = 1
    · rw [if_pos h₁]
      exact ⟨rfl, rfl⟩
    · rw [if_neg h₁, if_pos (List.any_eq_true.mpr ⟨c, hc, by simp [hinher]⟩)]
      exact ⟨rfl, rfl⟩

theorem delete_context_fails_witness :
    ((DeleteTileContext exMap4 1).1 = false ∧
      (DeleteTileContext exMap4 1).2.content = exMap4.content) ∧
    ((DeleteTileContext exMap3 1).1 = false ∧
      (DeleteTileContext exMap3 1).2.content = exMap3.content) :=
  ⟨(delete_context_fails_for_sole_base_and_for_inherited exMap4 1).1
      (mkContext "A" 1 (-1) 1) (by decide) (by decide) (by decide),
    (delete_context_fails_for_sole_base_and_for_inherited exMap3 1).2
      (mkContext "A" 1 (-1) 1) (mkContext "B" 2 1 2) (by decide) (by decide) (by decide)⟩

theorem eraseIdx_map {α β : Type} (f : α → β) :
    ∀ (l : List α) (i : Nat), (l.map f).eraseIdx i = (l.eraseIdx i).map f := by
  intro l
  induction l with
  | nil => intro i; rfl
  | cons a l ih =>
      intro i
      cases i with
      | zero => rfl
      | succ i => simp [List.eraseIdx_cons_succ, ih]

theorem find_at_offset :
    ∀ (l : List TileContext) (base : Int),
      (∀ i, i < l.length → (l[i]?).map (fun c => c.context_id) = some (base + i + 1)) →
      ∀ p : Int, base + 1 ≤ p → p ≤ base + l.length →
        l.find? (fun c => c.context_id == p) = l[(p - base - 1).toNat]? := by
  intro l
  induction l with
  | nil =>
      intro base _ p h₁ h₂
      simp at h₂
      omega
  | cons a l ih =>
      intro base hids p h₁ h₂
      have ha : a.context_id = base + 1 := by
        have h := hids 0 (by simp)
        simp at h
        omega
      have hcons : List.find? (fun c => c.context_id == p) (a :: l) =
          bif (a.context_id == p) then some a
          else List.find? (fun c => c.context_id == p) l := rfl
      by_cases hp : p = base + 1
      · have hhead : (a.context_id == p) = true := by
          rw [ha, hp]
          simp
        rw [hcons, hhead, cond_true,
          show (p - base - 1).toNat = 0 by omega, List.getElem?_cons_zero]
      · have hhead : (a.context_id == p) = false := by
          rw [ha]
          simp
          omega
        have hl : ∀ i, i < l.length →
            (l[i]?).map (fun c => c.context_id) = some ((base + 1) + i + 1) := by
          intro i hi
          have h := hids (i + 1) (by simp; omega)
          rw [List.getElem?_cons_succ] at h
          rw [h]
          congr 1
          push_cast
          ring
        have hlen : (l.length : Int) = (a :: l).length - 1 := by simp
        have := ih (base + 1) hl p (by omega) (by rw [hlen]; omega)
        rw [hcons, hhead, cond_false, this,
          show (p - base - 1).toNat = (p - (base + 1) - 1).toNat + 1 by omega,
          List.getElem?_cons_succ]

/-- C2: after a successful DeleteTileContext(k) on a well-formed map, the
surviving contexts occupy the slot array contiguously from the front, the
context in slot i (0-based) carries identifier i + 1 (identifiers above k
shifted down by one), every surviving inheritance reference resolves to a
live context, and the survivor that sat in slot j keeps its name and the
name of its logical inheritance parent at its new slot. -/
theorem delete_context_compacts_and_remaps (d : MapData) (k : Int) (d₂ : MapData)
    (hwf : SlotsWF d) (hdel : DeleteTileContext d k = (true, d₂)) :
    DeleteCompactConcl d k d₂ := by
  obtain ⟨hshape, hliveLen, hmax, hids, hinh⟩ := hwf
  have hinv : INVALID_CONTEXT = -1 := rfl
  unfold DeleteTileContext at hdel
  cases hf : FindTileContextByID d k with
  | none =>
      simp only [hf] at hdel
      simp at hdel
  | some ctx =>
      simp only [hf] at hdel
      by_cases h₁ : ctx.inherited_context_id = INVALID_CONTEXT ∧ baseContextCount d = 1
      · rw [if_pos h₁] at hdel
        simp at hdel
      · rw [if_neg h₁] at hdel
        by_cases h₂ : (liveContexts d).any (fun c => c.inherited_context_id == k) = true
        · rw [if_pos h₂] at hdel
          simp at hdel
        · rw [if_neg h₂] at hdel
          have hX : d₂.all_tile_contexts =
              ((d.all_tile_contexts.eraseIdx (k - 1).toNat).map
                (Option.map (remapAfterDelete k))) ++ [none] :=
            (congrArg (fun r => r.2.all_tile_contexts) hdel).symm
          have hcount : d₂.tile_context_count = d.tile_context_count - 1 :=
            (congrArg (fun r => r.2.tile_context_count) hdel).symm
          have hctxmem : ctx ∈ liveContexts d := List.mem_of_find?_eq_some hf
          have hctxid : ctx.context_id = k := by
            have h := List.find?_some hf
            simpa using h
          obtain ⟨j, hj, hjget⟩ := List.mem_iff_getElem.mp hctxmem
          have hk : k = (j : Int) + 1 := by
            have h := hids j hj
            rw [List.getElem?_eq_getElem hj, hjget] at h
            simp at h
            omega
          have hkj : (k - 1).toNat = j := by omega
          have hjn : j < d.tile_context_count := by omega
          have hnodep : ∀ c ∈ liveContexts d, c.inherited_context_id ≠ k := by
            intro c hc hceq
            exact h₂ (List.any_eq_true.mpr ⟨c, hc, by simp [hceq]⟩)
          have hslots₂ : d₂.all_tile_contexts =
              (((liveContexts d).eraseIdx j).map (remapAfterDelete k)).map some ++
                List.replicate (MAX_CONTEXTS - (d.tile_context_count - 1)) none := by
            rw [hX, hkj, hshape,
              List.eraseIdx_append_of_lt_length (show j <
                ((liveContexts d).map some).length by simpa using hj),
              eraseIdx_map]
            simp only [List.map_append, List.map_map, List.map_replicate,
              List.append_assoc, Function.comp, Option.map_some', Option.map_none']
            rw [show MAX_CONTEXTS - (d.tile_context_count - 1) =
              (MAX_CONTEXTS - d.tile_context_count) + 1 by omega, List.replicate_succ']
            rfl
          have hlive₂ : liveContexts d₂ =
              ((liveContexts d).eraseIdx j).map (remapAfterDelete k) := by
            show d₂.all_tile_contexts.filterMap id = _
            rw [hslots₂, filterMap_id_shape]
          have hnewlen : (((liveContexts d).eraseIdx j).map
              (remapAfterDelete k)).length = d.tile_context_count - 1 := by
            simp only [List.length_map, List.length_eraseIdx, hliveLen]
            rw [if_pos hjn]
          have hlget : ∀ i, i < (liveContexts d).length →
              ∃ c, (liveContexts d)[i]? = some c ∧ c.context_id = (i : Int) + 1 := by
            intro i hi
            have h := hids i hi
            cases hc : (liveContexts d)[i]? with
            | none => rw [hc] at h; simp at h
            | some c =>
                rw [hc] at h
                simp at h
                exact ⟨c, rfl, by omega⟩
          have hgetnew : ∀ i, ((((liveContexts d).eraseIdx j).map
              (remapAfterDelete k)))[i]? = Option.map (remapAfterDelete k)
                (if i < j then (liveContexts d)[i]? else (liveContexts d)[i + 1]?) := by
            intro i
            rw [List.getElem?_map, List.getElem?_eraseIdx]
          have hidsX : ∀ i, i < (liveContexts d₂).length →
              ((liveContexts d₂)[i]?).map (fun c => c.context_id) =
                some ((i : Int) + 1) := by
            intro i hi
            rw [hlive₂] at hi ⊢
            rw [hnewlen] at hi
            rw [hgetnew i]
            by_cases hij : i < j
            · rw [if_pos hij]
              obtain ⟨c, hc, hcid⟩ := hlget i (by omega)
              rw [hc]
              simp only [Option.map_some']
              show some (if k < c.context_id then c.context_id - 1
                else c.context_id) = some ((i : Int) + 1)
              rw [if_neg (by omega), hcid]
            · rw [if_neg hij]
              obtain ⟨c, hc, hcid⟩ := hlget (i + 1) (by omega)
              rw [hc]
              simp only [Option.map_some']
              show some (if k < c.context_id then c.context_id - 1
                else c.context_id) = some ((i : Int) + 1)
              rw [if_pos (by omega), hcid]
              congr 1
              push_cast
              ring
          have hlen₂ : (liveContexts d₂).length = d.tile_context_count - 1 := by
            rw [hlive₂, hnewlen]
          have hfind_d : ∀ p : Int, 1 ≤ p → p ≤ (d.tile_context_count : Int) →
              FindTileContextByID d p = (liveContexts d)[(p - 1).toNat]? := by
            intro p h1 h2
            show (liveContexts d).find? (fun c => c.context_id == p) = _
            have h := find_at_offset (liveContexts d) 0
              (fun i hi => by rw [hids i hi]; congr 1; omega) p (by omega) (by omega)
            have heq : (p - 0 - 1).toNat = (p - 1).toNat := by omega
            rw [heq] at h
            exact h
          have hfind_d₂ : ∀ p : Int, 1 ≤ p → p ≤ (d.tile_context_count : Int) - 1 →
              FindTileContextByID d₂ p = (liveContexts d₂)[(p - 1).toNat]? := by
            intro p h1 h2
            show (liveContexts d₂).find? (fun c => c.context_id == p) = _
            have h := find_at_offset (liveContexts d₂) 0
              (fun i hi => by rw [hidsX i hi]; congr 1; omega) p (by omega)
              (by rw [hlen₂] at *; omega)
            have heq : (p - 0 - 1).toNat = (p - 1).toNat := by omega
            rw [heq] at h
            exact h
          refine ⟨?_, ?_, hcount, hidsX, ?_, ?_⟩
          · rw [hslots₂, hlive₂, hcount]
          · rw [hlen₂, hcount]
          · -- every surviving inheritance reference resolves
            intro c' hc' hne
            rw [hlive₂] at hc'
            obtain ⟨c, hcmem, rfl⟩ := List.mem_map.mp hc'
            have hcl : c ∈ liveContexts d := List.eraseIdx_subset _ _ hcmem
            have hp' : (remapAfterDelete k c).inherited_context_id =
                if k < c.inherited_context_id then c.inherited_context_id - 1
                else c.inherited_context_id := rfl
            rcases hinh c hcl with hbase | ⟨hge, hle⟩
            · exfalso
              apply hne
              rw [hp', hbase, hinv, if_neg (by omega)]
            · have hpk : c.inherited_context_id ≠ k := hnodep c hcl
              have hb : 1 ≤ (remapAfterDelete k c).inherited_context_id ∧
                  (remapAfterDelete k c).inherited_context_id ≤
                    (d.tile_context_count : Int) - 1 := by
                rw [hp']
                split <;> omega
              rw [hfind_d₂ _ hb.1 hb.2]
              rw [List.getElem?_eq_getElem (show
                ((remapAfterDelete k c).inherited_context_id - 1).toNat <
                  (liveContexts d₂).length by rw [hlen₂]; omega)]
              simp
          · -- survivors keep their name and their parent name
            intro j₀ hj₀ hne
            rw [hkj] at hne
            simp only [hkj]
            have hmain : ∀ c, (liveContexts d)[j₀]? = some c →
                ((liveContexts d₂)[if j₀ < j then j₀ else j₀ - 1]?) =
                  some (remapAfterDelete k c) := by
              intro c hc
              rw [hlive₂, hgetnew]
              by_cases hlt : j₀ < j
              · rw [if_pos hlt, if_pos hlt, hc]
                rfl
              · rw [if_neg hlt, if_neg (show ¬ (j₀ - 1) < j by omega),
                  show j₀ - 1 + 1 = j₀ by omega, hc]
                rfl
            obtain ⟨c, hc, hcid⟩ := hlget j₀ hj₀
            have hcl : c ∈ liveContexts d := List.getElem?_mem hc
            constructor
            · rw [hmain c hc, hc]
              rfl
            · unfold parentNameAt
              rw [hmain c hc, hc]
              simp only [Option.some_bind]
              have hp' : (remapAfterDelete k c).inherited_context_id =
                  if k < c.inherited_context_id then c.inherited_context_id - 1
                  else c.inherited_context_id := rfl
              rcases hinh c hcl with hbase | ⟨hge, hle⟩
              · have hfcinh : (remapAfterDelete k c).inherited_context_id =
                    INVALID_CONTEXT := by
                  rw [hp', hbase, hinv]
                  rw [if_neg (by omega)]
                rw [if_pos hfcinh, if_pos hbase]
              · have hpk : c.inherited_context_id ≠ k := hnodep c hcl
                rw [if_neg (show ¬ c.inherited_context_id = INVALID_CONTEXT by
                  rw [hinv]; omega)]
                rw [if_neg (show ¬ (remapAfterDelete k c).inherited_context_id =
                  INVALID_CONTEXT by rw [hp', hinv]; split <;> omega)]
                rw [hfind_d _ hge hle]
                have hb : 1 ≤ (remapAfterDelete k c).inherited_context_id ∧
                    (remapAfterDelete k c).inherited_context_id ≤
                      (d.tile_context_count : Int) - 1 := by
                  rw [hp']
                  split <;> omega
                rw [hfind_d₂ _ hb.1 hb.2]
                obtain ⟨q, hq, hqid⟩ := hlget
                  ((c.inherited_context_id - 1).toNat) (by omega)
                rw [hq]
                rw [hlive₂, hgetnew]
                by_cases hpk2 : k < c.inherited_context_id
                · rw [hp', if_pos hpk2,
                    show (c.inherited_context_id - 1 - 1).toNat =
                      (c.inherited_context_id - 1).toNat - 1 by omega,
                    if_neg (show ¬ ((c.inherited_context_id - 1).toNat - 1) < j by omega),
                    show (c.inherited_context_id - 1).toNat - 1 + 1 =
                      (c.inherited_context_id - 1).toNat by omega, hq]
                  rfl
                · rw [hp', if_neg hpk2,
                    if_pos (show (c.inherited_context_id - 1).toNat < j by omega), hq]
                  rfl

theorem delete_context_compacts_witness :
    SlotsWF exMap3 ∧ DeleteCompactConcl exMap3 2 (DeleteTileContext exMap3 2).2 := by
  have h₁ : SlotsWF exMap3 := by decide
  have h₂ : DeleteTileContext exMap3 2 = (true, (DeleteTileContext exMap3 2).2) :=
    Prod.ext (by decide) rfl
  exact ⟨h₁, delete_context_compacts_and_remaps exMap3 2 _ h₁ h₂⟩

end HoaEditor
